import Mathlib

/-!
Shallow embedding of the query-response engine of `lmd` (`src/lmd/response.go`)
together with theorems settling the frozen claims about it.

Conventions of the embedding:
* Go `interface{}` cells are modelled by the inductive `Value`.
* Go `float64` is modelled by `Rat` (the claims under scrutiny concern the
  comparator/aggregation structure, not floating-point rounding).
* Go `int` request fields (`Limit`, `Offset`, `ResultTotal`) are `Int`.
* A Go run-time panic (slice out of range, index out of range, type switch
  falling into `panic`) is modelled by `Option`/`ExecResult.panicked`.
  Go slice expressions are modelled with capacity = length (the tightest
  allocation); `goSliceFrom`/`goSliceTo` return `none` exactly when the Go
  slice bounds exceed that capacity.
* Types declared in files of the repository that are not under `src/`
  (`column.go`, `request.go`, `peer.go`, …) but used by `response.go` are
  modelled from the spec; each carries a note saying so.
-/

/-- Modelled from the spec: column value types (`ColumnType` lives in the
repository's `column.go`, outside `src/`); the spec lists
Type ∈ \x7bInt, Float, String, Time, StringList, IntList, Virtual\x7d. -/
inductive ColumnType where
  | IntCol
  | FloatCol
  | StringCol
  | StringListCol
  | IntListCol
  | TimeCol
  | VirtCol
deriving DecidableEq, Repr

/-- Modelled from the spec: column update policies (`column.go`, outside
`src/`); `response.go` references `StaticUpdate`, `DynamicUpdate` and
`VirtUpdate`; `NoUpdate` stands for the remaining zero value. -/
inductive UpdateType where
  | NoUpdate
  | StaticUpdate
  | DynamicUpdate
  | VirtUpdate
deriving DecidableEq, Repr

/-- Modelled from the spec: peer connection states (`peer.go`, outside
`src/`); `response.go` only tests against `PeerStatusDown`. -/
inductive PeerStatus where
  | PeerStatusUp
  | PeerStatusDown
  | PeerStatusWarning
  | PeerStatusPending
deriving DecidableEq, Repr

/-- Modelled from the spec: sort directions (`request.go`, outside `src/`). -/
inductive Direction where
  | Asc
  | Desc
deriving DecidableEq, Repr

/-- Stats aggregation kinds; `response.go` matches on
`Counter`, `Min`, `Max`, `Sum`, `Average` (declared outside `src/`). -/
inductive StatsType where
  | Counter
  | Min
  | Max
  | Sum
  | Average
deriving DecidableEq, Repr

/-- A heterogeneous result cell (Go `interface\x7b\x7d`).  `VNull` is Go's
`nil` interface value, `VInt`/`VFloat` the numeric kinds, with `float64`
modelled as `Rat`. -/
inductive Value where
  | VNull
  | VInt (i : Int)
  | VFloat (q : Rat)
  | VStr (s : String)
  | VStrList (l : List String)
  | VIntList (l : List Int)
deriving DecidableEq, Repr

/-- A result row: Go `[]interface\x7b\x7d`. -/
abbrev Row := List Value

/-- Column descriptor as used by `response.go` (`Name`, `Type`, output
position `Index`, `RefIndex` of virtual columns, update policy).  The Go
field `Type` is called `Typ` here because `Type` is a Lean keyword. -/
structure Column where
  Name : String
  Typ : ColumnType
  Index : Nat
  RefIndex : Nat
  Update : UpdateType
deriving DecidableEq, Repr

/-- Modelled from the spec: one sort key of a request (`request.go`,
outside `src/`): column name, requested direction and — after index
resolution — the output position the comparator reads. -/
structure SortField where
  Name : String
  Direction : Direction
  Index : Nat
deriving DecidableEq, Repr

/-- One stats spec with its running accumulator `Stats` and sample count
`StatsCount`, as read by the post-processor (the full struct lives in the
filter code outside `src/`). -/
structure StatsSpec where
  StatsType : StatsType
  Stats : Rat
  StatsCount : Nat
deriving DecidableEq, Repr

/-- Modelled from the spec: the immutable per-query request (`request.go`,
outside `src/`), restricted to the fields `response.go` reads; the filter
tree is an external collaborator and is not modelled.  The Go field `Sort`
is called `Sort'` here because `Sort` is a Lean keyword. -/
structure Request where
  Table : String
  Columns : List String
  Stats : List StatsSpec
  Sort' : List SortField
  Limit : Int
  Offset : Int
  Backends : List String
  OutputFormat : String
  SendColumnsHeader : Bool
  ResponseFixed16 : Bool
deriving DecidableEq, Repr

/-- The response accumulator of `response.go`; `Failed` (a Go map filled
in registry order) is modelled as an association list. -/
structure Response where
  Code : Int
  Result : List Row
  ResultTotal : Int
  Request : Request
  Error : Option String
  Failed : List (String × String)
  Columns : List Column
deriving DecidableEq, Repr

/-- Outcome of running a piece of the Go code: normal value, a
bad-request error (Go `error` return), or a run-time panic. -/
inductive ExecResult (α : Type) where
  | ok : α → ExecResult α
  | badRequest : String → ExecResult α
  | panicked : ExecResult α
deriving DecidableEq, Repr

/-- Modelled from the spec: `NumberToFloat` (in `peer.go`, outside `src/`)
converts a numeric cell to `float64`; the comparator uses it so that
"numeric types (Time/Int/Float) compare by value". Non-numeric cells
convert to 0. -/
def NumberToFloat : Value → Rat
  | Value.VInt i => (i : Rat)
  | Value.VFloat q => q
  | _ => 0

/-- Go slice expression `l[n:]` under capacity = length: defined only for
`n ≤ len l`, otherwise a run-time panic (`none`). -/
def goSliceFrom (l : List α) (n : Nat) : Option (List α) :=
  if n ≤ l.length then some (l.drop n) else none

/-- Go slice expression `l[0:n]` under capacity = length: defined only for
`n ≤ len l`, otherwise a run-time panic (`none`). -/
def goSliceTo (l : List α) (n : Nat) : Option (List α) :=
  if n ≤ l.length then some (l.take n) else none

/-- Comparator core of `Response.Less` (response.go:56-98), acting on the
two rows `r1 = res.Result[i]` and `r2 = res.Result[j]` directly.  It walks
the sort keys; `none` is a Go panic (column position out of range, row too
short, or a column type the sort cannot handle). -/
def lessRow (cols : List Column) : List SortField → Row → Row → Option Bool
  | [], _, _ => some true
  | s :: rest, r1, r2 =>
    match cols.get? s.Index with
    | none => none
    | some c =>
      match c.Typ with
      | ColumnType.TimeCol | ColumnType.IntCol | ColumnType.FloatCol =>
        match r1.get? s.Index, r2.get? s.Index with
        | some a, some b =>
          let valueA := NumberToFloat a
          let valueB := NumberToFloat b
          if valueA = valueB then lessRow cols rest r1 r2
          else if s.Direction = Direction.Asc then some (decide (valueA < valueB))
          else some (decide (valueB < valueA))
        | _, _ => none
      | ColumnType.StringCol =>
        match r1.get? s.Index with
        | none => none
        | some (Value.VStr s1) =>
          match r2.get? s.Index with
          | none => none
          | some (Value.VStr s2) =>
            if s1 = s2 then lessRow cols rest r1 r2
            else if s.Direction = Direction.Asc then some (decide (s1 < s2))
            else some (decide (s2 < s1))
          | some _ => some (decide (s.Direction = Direction.Asc))
        | some _ => some (decide (s.Direction = Direction.Asc))
      | ColumnType.StringListCol => some (decide (s.Direction = Direction.Asc))
      | ColumnType.IntListCol => some (decide (s.Direction = Direction.Asc))
      | ColumnType.VirtCol => none

/-- Insertion into a sorted list, building block of `sortBy`. -/
def insertSorted (cmp : α → α → Bool) (x : α) : List α → List α
  | [] => [x]
  | y :: ys => if cmp x y then x :: y :: ys else y :: insertSorted cmp x ys

/-- Model of `sort.Sort` (an unstable comparison sort) as an insertion
sort driven by the same comparator; no claim depends on the order of
mutually equal rows, which Go leaves unspecified. -/
def sortBy (cmp : α → α → Bool) : List α → List α
  | [] => []
  | x :: xs => insertSorted cmp x (sortBy cmp xs)

/-- Sort step of `BuildResponsePostProcessing` (response.go:202-207): the
sort runs only when sort keys are present.  A comparator panic (impossible
for well-typed sort keys) defaults to `true`. -/
def sortStep (res : Response) : Response :=
  if res.Request.Sort'.length > 0 then
    let cmp := fun a b => (lessRow res.Columns res.Request.Sort' a b).getD true
    { res with Result := sortBy cmp res.Result }
  else res

/-- ResultTotal fixing step (response.go:209-211). -/
def resultTotalStep (res : Response) : Response :=
  if res.ResultTotal = 0 then { res with ResultTotal := (res.Result.length : Int) } else res

/-- Offset step (response.go:214-220); `none` is the Go slice panic. -/
def offsetStep (res : Response) : Option Response :=
  if res.Request.Offset > 0 then
    if res.Request.Offset > res.ResultTotal then some { res with Result := [] }
    else
      match goSliceFrom res.Result res.Request.Offset.toNat with
      | none => none
      | some l => some { res with Result := l }
  else some res

/-- Limit step (response.go:223-227); note the Go code compares `Limit`
against `ResultTotal`, not against the current (post-offset) result
length, and then slices `res.Result[0:Limit]` — `none` is the resulting
slice panic. -/
def limitStep (res : Response) : Option Response :=
  if res.Request.Limit > 0 then
    if res.Request.Limit < res.ResultTotal then
      match goSliceTo res.Result res.Request.Limit.toNat with
      | none => none
      | some l => some { res with Result := l }
    else some res
  else some res

/-- The cell emitted for one stats spec (response.go:233-260): the switch
on the kind followed by the `StatsCount == 0` override.  The literal `0`
written by the Go code is the untyped integer constant, hence `VInt 0`. -/
def statCell (s : StatsSpec) : Value :=
  let base :=
    match s.StatsType with
    | StatsType.Counter => Value.VFloat s.Stats
    | StatsType.Min => Value.VFloat s.Stats
    | StatsType.Max => Value.VFloat s.Stats
    | StatsType.Sum => Value.VFloat s.Stats
    | StatsType.Average =>
        if s.StatsCount > 0 then Value.VFloat (s.Stats / (s.StatsCount : Rat))
        else Value.VInt 0
  if s.StatsCount = 0 then Value.VInt 0 else base

/-- Stats reduction step (response.go:230-262): when stats specs are
present the matrix is replaced by one synthesized row. -/
def statsStep (res : Response) : Response :=
  if res.Request.Stats.length > 0 then
    { res with Result := [res.Request.Stats.map statCell] }
  else res

/-- `BuildResponsePostProcessing` (response.go:199-264): sort, fix
`ResultTotal`, apply offset, apply limit, reduce stats.  `panicked`
records a Go run-time panic in the two slice expressions. -/
def postProcess (res : Response) : ExecResult Response :=
  match offsetStep (resultTotalStep (sortStep res)) with
  | none => ExecResult.panicked
  | some r =>
    match limitStep r with
    | none => ExecResult.panicked
    | some r2 => ExecResult.ok (statsStep r2)

/-- Entry of the virtual column catalog (response.go:26-30): synthetic
sentinel index, peer status key, column type. -/
structure VirtKeyMapTupel where
  Index : Int
  Key : String
  Typ : ColumnType
deriving DecidableEq, Repr

/-- The `VirtKeyMap` literal (response.go:34-48) as an association list. -/
def virtKeyMapList : List (String × VirtKeyMapTupel) :=
  [ ("key", { Index := -1, Key := "PeerKey", Typ := ColumnType.StringCol }),
    ("name", { Index := -2, Key := "PeerName", Typ := ColumnType.StringCol }),
    ("addr", { Index := -4, Key := "PeerAddr", Typ := ColumnType.StringCol }),
    ("status", { Index := -5, Key := "PeerStatus", Typ := ColumnType.IntCol }),
    ("bytes_send", { Index := -6, Key := "BytesSend", Typ := ColumnType.IntCol }),
    ("bytes_received", { Index := -7, Key := "BytesReceived", Typ := ColumnType.IntCol }),
    ("queries", { Index := -8, Key := "Querys", Typ := ColumnType.IntCol }),
    ("last_error", { Index := -9, Key := "LastError", Typ := ColumnType.StringCol }),
    ("last_online", { Index := -10, Key := "LastOnline", Typ := ColumnType.TimeCol }),
    ("last_update", { Index := -11, Key := "LastUpdate", Typ := ColumnType.TimeCol }),
    ("response_time", { Index := -12, Key := "ReponseTime", Typ := ColumnType.FloatCol }),
    ("state_order", { Index := -13, Key := "", Typ := ColumnType.IntCol }),
    ("last_state_change_order", { Index := -14, Key := "", Typ := ColumnType.IntCol }) ]

/-- Go map read `VirtKeyMap[col]`: a missing key yields the zero value of
the tuple (the zero `ColumnType` is declared outside `src/`; `IntCol` is
used as that zero here — no claim depends on it). -/
def VirtKeyMap (c : String) : VirtKeyMapTupel :=
  (virtKeyMapList.lookup c).getD { Index := 0, Key := "", Typ := ColumnType.IntCol }

/-- Modelled from the spec: the immutable schema descriptor (`table.go`,
outside `src/`), restricted to the fields `response.go` reads.
`ColumnsIndex` is the name→index lookup. -/
structure Table where
  Name : String
  Columns : List Column
  ColumnsIndex : List (String × Nat)
  PassthroughOnly : Bool
  DynamicColCacheIndexes : List Int
deriving DecidableEq, Repr

/-- The Go zero value of `Table` (what `Objects.Tables[req.Table]`
yields for an unknown table, since the lookup's `ok` flag is ignored at
response.go:115). -/
def emptyTable : Table :=
  { Name := "", Columns := [], ColumnsIndex := [], PassthroughOnly := false,
    DynamicColCacheIndexes := [] }

/-- Modelled from the spec: one registered backend connection (`peer.go`,
outside `src/`).  The mutable `Status` map entries read by `response.go`
are flattened into fields (`Status["PeerStatus"]`, `Status["LastError"]`,
`Status["Idling"]`); `query` is the remote round-trip and `getRowValue`
resolves a virtual column value from peer status or computes it
(arguments: refIndex, row after the shift, row number, table, numPerRow;
the Go `extra` argument is always `nil` here and omitted). -/
structure Peer where
  ID : String
  Name : String
  PStatus : PeerStatus
  LastError : String
  Idling : Bool
  query : Request → Except String (List Row)
  getRowValue : Nat → Row → Nat → Table → Nat → Value

/-- The Go zero value of `Peer`, as produced by reading a missing key of
the `DataStore` map (the registry invariant keeps this unreachable). -/
def defaultPeer : Peer :=
  { ID := "", Name := "", PStatus := PeerStatus.PeerStatusUp, LastError := "",
    Idling := false, query := fun _ => Except.ok [],
    getRowValue := fun _ _ _ _ _ => Value.VNull }

/-- The reduced child request built per peer in passthrough mode
(response.go:423-431): same table/stats/limit, only real columns, compact
output format, fixed framing; every other field is the Go zero value. -/
def passthroughRequest (req : Request) (backendColumns : List String) : Request :=
  { Table := req.Table, Columns := backendColumns, Stats := req.Stats, Sort' := [],
    Limit := req.Limit, Offset := 0, Backends := [], OutputFormat := "json",
    SendColumnsHeader := false, ResponseFixed16 := true }

/-- One virtual column splice into one row (response.go:446-449):
`row = append(row, 0); copy(row[i+1:], row[i:]); row[i] = value`, with the
value resolved from the already-shifted row.  `none` is the Go index
panic when the output position exceeds the row length. -/
def insertVirt (p : Peer) (table : Table) (numPerRow : Nat) (j : Nat) (col : Column)
    (row : Row) : Option Row :=
  if col.Index ≤ row.length then
    let shifted := row.take col.Index ++ row.getD col.Index (Value.VInt 0) :: row.drop col.Index
    some (row.take col.Index ++ p.getRowValue col.RefIndex shifted j table numPerRow :: row.drop col.Index)
  else none

/-- Splices every requested virtual column into one row, in order
(response.go:445-450). -/
def spliceRow (p : Peer) (table : Table) (numPerRow : Nat) (j : Nat) :
    List Column → Row → Option Row
  | [], row => some row
  | c :: cs, row =>
    match insertVirt p table numPerRow j c row with
    | none => none
    | some row2 => spliceRow p table numPerRow j cs row2

/-- Splices the virtual columns into every returned row, `j` counting row
numbers (response.go:443-453). -/
def spliceRows (p : Peer) (table : Table) (numPerRow : Nat) (virtCols : List Column) :
    Nat → List Row → Option (List Row)
  | _, [] => some []
  | j, r :: rs =>
    match spliceRow p table numPerRow j virtCols r with
    | none => none
    | some r2 =>
      match spliceRows p table numPerRow virtCols (j + 1) rs with
      | none => none
      | some rs2 => some (r2 :: rs2)

/-- Per-peer passthrough units (response.go:405-459), sequentialized: the
Go code runs one goroutine per non-Down peer and blocks on a join barrier
until all finish; `Failed` is keyed by peer id and each matrix append is
under a mutex, so the merged `Failed` entries and — when a single peer
contributes rows — the merged matrix are deterministic.  The second
component collects the ids of peers an actual remote call was issued to. -/
def passThroughLoop (table : Table) (virtColumns : List Column) (childReq : Request)
    (numPerRow : Nat) : List Peer → Response → List String → ExecResult (Response × List String)
  | [], res, calls => ExecResult.ok (res, calls)
  | p :: rest, res, calls =>
    if p.PStatus = PeerStatus.PeerStatusDown then
      passThroughLoop table virtColumns childReq numPerRow rest
        { res with Failed := res.Failed ++ [(p.ID, p.LastError)] } calls
    else
      match p.query childReq with
      | Except.error e =>
        passThroughLoop table virtColumns childReq numPerRow rest
          { res with Failed := res.Failed ++ [(p.ID, e)] } (calls ++ [p.ID])
      | Except.ok rows =>
        match spliceRows p table numPerRow virtColumns 0 rows with
        | none => ExecResult.panicked
        | some rows2 =>
          passThroughLoop table virtColumns childReq numPerRow rest
            { res with Result := res.Result ++ rows2 } (calls ++ [p.ID])

/-- `BuildPassThroughResult` (response.go:388-464): splits the resolved
columns into real and virtual, builds the reduced child request, resets
the matrix, runs the per-peer units.  Peer failures land in `Failed`;
`res.Error` is never written. -/
def buildPassThroughResult (peers : List Peer) (table : Table) (columns : List Column)
    (numPerRow : Nat) (res : Response) : ExecResult (Response × List String) :=
  let backendColumns := (columns.filter (fun c => decide (c.RefIndex = 0))).map Column.Name
  let virtColumns := columns.filter (fun c => decide (0 < c.RefIndex))
  let childReq := passthroughRequest res.Request backendColumns
  passThroughLoop table virtColumns childReq numPerRow peers { res with Result := [] } []

/-- Column auto-expansion (response.go:272-279): a request with neither
columns nor stats gets every Static/Dynamic/VirtUpdate-policy or
Virtual-type column, in schema order, and the column-header flag set. -/
def expandColumnsReq (table : Table) (req : Request) : Request :=
  if req.Columns = [] ∧ req.Stats = [] then
    let keep := fun (col : Column) =>
      decide (col.Update = UpdateType.StaticUpdate ∨ col.Update = UpdateType.DynamicUpdate ∨
        col.Update = UpdateType.VirtUpdate ∨ col.Typ = ColumnType.VirtCol)
    { req with SendColumnsHeader := true, Columns := (table.Columns.filter keep).map Column.Name }
  else req

/-- ASCII lower-casing used on requested column names
(`strings.ToLower`; all schema names here are ASCII).  This is
`String.toLower` re-stated through the character list so that it is
kernel-reducible. -/
def toLowerStr (s : String) : String := String.mk (s.data.map Char.toLower)

/-- Requested-column resolution loop (response.go:281-297).  `j` is the
output position, the three accumulators are `indexes`, `columns` and the
`requestColumnsMap` (consed, so that `List.lookup` sees the latest
binding first — Go map overwrite semantics).  An unknown (lowercased)
name is a bad request naming table and column; an index outside the
schema column list would be a Go panic. -/
def resolveColumns (reqTable : String) (table : Table) :
    List String → Nat → List Int → List Column → List (String × Nat) →
    ExecResult (List Int × List Column × List (String × Nat))
  | [], _, indexes, columns, rcm => ExecResult.ok (indexes, columns, rcm)
  | c0 :: rest, j, indexes, columns, rcm =>
    let c := (toLowerStr c0)
    match table.ColumnsIndex.lookup c with
    | none => ExecResult.badRequest ("bad request: table " ++ reqTable ++ " has no column " ++ c)
    | some i =>
      match table.Columns.get? i with
      | none => ExecResult.panicked
      | some tc =>
        let idx : Int := if tc.Typ = ColumnType.VirtCol then (VirtKeyMap c).Index else (i : Int)
        let col : Column :=
          if tc.Typ = ColumnType.VirtCol then
            { Name := c, Typ := (VirtKeyMap c).Typ, Index := j, RefIndex := i,
              Update := UpdateType.NoUpdate }
          else
            { Name := c, Typ := tc.Typ, Index := j, RefIndex := 0,
              Update := UpdateType.NoUpdate }
        resolveColumns reqTable table rest (j + 1) (indexes ++ [idx]) (columns ++ [col])
          ((c, j) :: rcm)

/-- Sort-column validation (response.go:300-312): each sort column must
exist in the schema and in the resolved output set; it is then rewritten
to its output position.  (The Go loop writes `s.Index` through the
request's sort fields, which live in `request.go` outside `src/`; the
spec says "each is rewritten to its output position", so the rewritten
list is returned.) -/
def validateSort (reqTable : String) (table : Table) (rcm : List (String × Nat)) :
    List SortField → ExecResult (List SortField)
  | [] => ExecResult.ok []
  | s :: rest =>
    match table.ColumnsIndex.lookup s.Name with
    | none =>
      ExecResult.badRequest
        ("bad request: table " ++ reqTable ++ " has no column " ++ s.Name ++ " to sort")
    | some _ =>
      match rcm.lookup s.Name with
      | none => ExecResult.badRequest ("bad request: sort column " ++ s.Name ++ " not in result set")
      | some i =>
        match validateSort reqTable table rcm rest with
        | ExecResult.ok others => ExecResult.ok ({ s with Index := i } :: others)
        | ExecResult.badRequest m => ExecResult.badRequest m
        | ExecResult.panicked => ExecResult.panicked

/-- `BuildResponseIndexes` (response.go:267-315): expansion, column
resolution, sort validation. -/
def buildResponseIndexes (table : Table) (req : Request) :
    ExecResult (List Int × List Column × Request) :=
  let req := expandColumnsReq table req
  match resolveColumns req.Table table req.Columns 0 [] [] [] with
  | ExecResult.badRequest m => ExecResult.badRequest m
  | ExecResult.panicked => ExecResult.panicked
  | ExecResult.ok (indexes, columns, rcm) =>
    match validateSort req.Table table rcm req.Sort' with
    | ExecResult.badRequest m => ExecResult.badRequest m
    | ExecResult.panicked => ExecResult.panicked
    | ExecResult.ok sorted => ExecResult.ok (indexes, columns, { req with Sort' := sorted })

/-- Backend validation loop inside `ExpandRequestBackends`
(response.go:186-193). -/
def checkBackends (dataStore : List (String × Peer)) : List String → ExecResult (List String)
  | [] => ExecResult.ok []
  | b :: rest =>
    match dataStore.lookup b with
    | none => ExecResult.badRequest ("bad request: backend " ++ b ++ " does not exist")
    | some _ =>
      match checkBackends dataStore rest with
      | ExecResult.ok l => ExecResult.ok (b :: l)
      | ExecResult.badRequest m => ExecResult.badRequest m
      | ExecResult.panicked => ExecResult.panicked

/-- `ExpandRequestBackends` (response.go:182-196): validates each
requested backend against the registry; the backends map is modelled as
the list of validated ids. -/
def expandRequestBackends (dataStore : List (String × Peer)) (req : Request) :
    ExecResult (List String × Nat) :=
  let numBackendsReq := req.Backends.length
  if numBackendsReq > 0 then
    match checkBackends dataStore req.Backends with
    | ExecResult.ok l => ExecResult.ok (l, numBackendsReq)
    | ExecResult.badRequest m => ExecResult.badRequest m
    | ExecResult.panicked => ExecResult.panicked
  else ExecResult.ok ([], 0)

/-- The engine's external collaborators: the table catalog
(`Objects.Tables`), the ordered peer registry (`DataStoreOrder` /
`DataStore`) and — modelled from the spec since `peer.go` is outside
`src/` — `BuildLocalResponseData`, which copies already-cached rows at
the resolved indexes into the response matrix (aggregation mode). -/
structure Env where
  tables : List (String × Table)
  dataStoreOrder : List String
  dataStore : List (String × Peer)
  localData : Peer → Request → Nat → List Int → Response → Response

/-- Observable side effects of `BuildResponse`, used to state that
bad requests abort before any peer work happens. -/
inductive Event where
  | spunUp (ids : List String)
  | queried (id : String)
  | localMerged (id : String)
  | postProcessed
deriving DecidableEq, Repr

/-- Aggregation-mode collector loop (response.go:165-172): sequentially
merge each selected peer's cached rows; for the two meta-tables only the
first peer contributes, then the loop stops. -/
def aggLoop (env : Env) (table : Table) (req : Request) (numPerRow : Nat)
    (indexes : List Int) : List String → Response → Response × List Event
  | [], res => (res, [])
  | id :: rest, res =>
    let p := (env.dataStore.lookup id).getD defaultPeer
    let res := env.localData p req numPerRow indexes res
    if table.Name = "tables" ∨ table.Name = "columns" then (res, [Event.localMerged id])
    else
      let out := aggLoop env table req numPerRow indexes rest res
      (out.1, Event.localMerged id :: out.2)

/-- Final step shared by both collector branches: run the post-processor
and record that it ran. -/
def finishPost (evs : List Event) (res : Response) : ExecResult Response × List Event :=
  (postProcess res, evs ++ [Event.postProcessed])

/-- `BuildResponse` (response.go:107-179): resolve indexes, expand
backends, select peers (registry order), coalesce one spin-up signal,
force meta-table selection to the first registered peer, collect
(passthrough or aggregation), post-process.  The event list records the
peer-facing work actually performed. -/
def buildResponse (env : Env) (req : Request) : ExecResult Response × List Event :=
  let table := (env.tables.lookup req.Table).getD emptyTable
  match buildResponseIndexes table req with
  | ExecResult.badRequest m => (ExecResult.badRequest m, [])
  | ExecResult.panicked => (ExecResult.panicked, [])
  | ExecResult.ok (indexes, columns, req) =>
    let numPerRow := indexes.length
    match expandRequestBackends env.dataStore req with
    | ExecResult.badRequest m => (ExecResult.badRequest m, [])
    | ExecResult.panicked => (ExecResult.panicked, [])
    | ExecResult.ok (backendsMap, numBackendsReq) =>
      let res : Response :=
        { Code := 200, Result := [], ResultTotal := 0, Request := req, Error := none,
          Failed := [], Columns := columns }
      let selectedPeers := env.dataStoreOrder.filter
        (fun id => decide (numBackendsReq = 0) || backendsMap.contains id)
      let spinUpPeers := selectedPeers.filter (fun id =>
        let p := (env.dataStore.lookup id).getD defaultPeer
        !table.PassthroughOnly && p.Idling && decide (0 < table.DynamicColCacheIndexes.length))
      let ev1 := if spinUpPeers.length > 0 then [Event.spunUp spinUpPeers] else []
      match (if table.Name = "tables" ∨ table.Name = "columns" then
               (env.dataStoreOrder.get? 0).map (fun id => [id])
             else some selectedPeers) with
      | none => (ExecResult.panicked, ev1)
      | some selectedPeers =>
        if table.PassthroughOnly then
          match buildPassThroughResult
              (selectedPeers.map (fun id => (env.dataStore.lookup id).getD defaultPeer))
              table columns numPerRow res with
          | ExecResult.panicked => (ExecResult.panicked, ev1)
          | ExecResult.badRequest m => (ExecResult.badRequest m, ev1)
          | ExecResult.ok (res, calls) => finishPost (ev1 ++ calls.map Event.queried) res
        else
          let out := aggLoop env table req numPerRow indexes selectedPeers res
          finishPost (ev1 ++ out.2) out.1

/-- Right-justification of Go's `fmt.Sprintf("%11d", n)`: pad with spaces
on the left up to the field width (wider values print in full). -/
def padLeftSpaces (w : Nat) (s : String) : String :=
  String.mk (List.replicate (w - s.length) ' ') ++ s

/-- The fixed-framing status line `fmt.Sprintf("%d %11d\n", code, size)`
(response.go:367). -/
def statusLine (code : Int) (size : Nat) : String :=
  toString code ++ " " ++ padLeftSpaces 11 (toString size) ++ "\n"

/-- The writes `Send` issues, in order, as a function of the assembled
body bytes (response.go:364-383): `size = len(resBytes) + 1`; with fixed
framing the status line goes first; the body is followed by exactly one
trailing newline, always. -/
def sendFrames (fixed16 : Bool) (code : Int) (body : String) : List String :=
  let size := body.utf8ByteSize + 1
  (if fixed16 then [statusLine code size] else []) ++ [body, "\n"]

/-- Header-row prepend at the top of `Send` (response.go:320-329):
`cols := make([]interface\x7b\x7d, len(Columns)+len(Stats))` starts
all-`nil`; the loop fills only the `Columns` prefix with the column
names, so the `Stats` tail stays `nil`. -/
def prependHeader (res : Response) : Response :=
  if res.Request.SendColumnsHeader then
    let cols : Row :=
      res.Request.Columns.map Value.VStr ++ List.replicate res.Request.Stats.length Value.VNull
    { res with Result := cols :: res.Result }
  else res

/-! ## Helper lemmas -/

theorem sortStep_request (res : Response) : (sortStep res).Request = res.Request := by
  unfold sortStep
  split <;> rfl

theorem resultTotalStep_request (res : Response) :
    (resultTotalStep res).Request = res.Request := by
  unfold resultTotalStep
  split <;> rfl

theorem offsetStep_request (res r : Response) (h : offsetStep res = some r) :
    r.Request = res.Request := by
  unfold offsetStep at h
  split at h
  · split at h
    · injection h with h
      subst h
      rfl
    · split at h
      · exact absurd h (by simp)
      · injection h with h
        subst h
        rfl
  · injection h with h
    subst h
    rfl

theorem limitStep_request (res r : Response) (h : limitStep res = some r) :
    r.Request = res.Request := by
  unfold limitStep at h
  split at h
  · split at h
    · split at h
      · exact absurd h (by simp)
      · injection h with h
        subst h
        rfl
    · injection h with h
      subst h
      rfl
  · injection h with h
    subst h
    rfl

/-! ## C1 -/

/-- C1: evaluation of the post-processor at the failing input.  A
response entering post-processing with 3 rows, `ResultTotal` unset,
`Offset = 2` and `Limit = 2` should — per the claim — end with
`min(max(3−2,0),2) = 1` row; instead the Go code compares `Limit`
against `ResultTotal` (3) rather than the post-offset length (1) and
slices `res.Result[0:2]` out of a 1-row slice: a run-time panic. -/
theorem claim_C1 :
    postProcess
      { Code := 200,
        Result := [[Value.VInt 1], [Value.VInt 2], [Value.VInt 3]],
        ResultTotal := 0,
        Request :=
          { Table := "hosts", Columns := ["name"], Stats := [], Sort' := [],
            Limit := 2, Offset := 2, Backends := [], OutputFormat := "",
            SendColumnsHeader := false, ResponseFixed16 := false },
        Error := none, Failed := [], Columns := [] } = ExecResult.panicked := by
  rfl

/-! ## C2 -/

/-- C2: whenever stats specs are present and post-processing completes,
the matrix is replaced by exactly one row holding one cell per stat spec
(`statCell`); `statCell` emits the accumulator verbatim for
Counter/Min/Max/Sum, the accumulator divided by the sample count for
Average with positive count, and `0` for every spec whose sample count
is 0, regardless of kind. -/
theorem claim_C2 :
    (∀ (res out : Response), res.Request.Stats ≠ [] →
      postProcess res = ExecResult.ok out →
      out.Result = [res.Request.Stats.map statCell] ∧ out.Result.length = 1) ∧
    (∀ s : StatsSpec, s.StatsCount = 0 → statCell s = Value.VInt 0) ∧
    (∀ s : StatsSpec, 0 < s.StatsCount → s.StatsType = StatsType.Average →
      statCell s = Value.VFloat (s.Stats / (s.StatsCount : Rat))) ∧
    (∀ s : StatsSpec, 0 < s.StatsCount →
      (s.StatsType = StatsType.Counter ∨ s.StatsType = StatsType.Min ∨
        s.StatsType = StatsType.Max ∨ s.StatsType = StatsType.Sum) →
      statCell s = Value.VFloat s.Stats) := by
  refine ⟨?_, ?_, ?_, ?_⟩
  · intro res out hne hpp
    unfold postProcess at hpp
    split at hpp
    · exact absurd hpp (by simp)
    · rename_i r ho
      split at hpp
      · exact absurd hpp (by simp)
      · rename_i r2 hl
        injection hpp with hpp
        have hreq : r2.Request = res.Request := by
          rw [limitStep_request r r2 hl, offsetStep_request _ r ho,
            resultTotalStep_request, sortStep_request]
        subst hpp
        have h1 : (statsStep r2).Result = [res.Request.Stats.map statCell] := by
          simp [statsStep, hreq, List.length_pos.mpr hne]
        exact ⟨h1, by rw [h1]; rfl⟩
  · intro s h
    simp [statCell, h]
  · intro s h ha
    have h0 : ¬ s.StatsCount = 0 := by omega
    simp [statCell, ha, h0, h]
  · intro s h hd
    have h0 : ¬ s.StatsCount = 0 := by omega
    rcases hd with h1 | h1 | h1 | h1 <;> simp [statCell, h1, h0]

/-- Sample response for the C2 witness: two stats specs (a Counter with
accumulator 5 over 2 samples, an Average with accumulator 6 over 0
samples) and no offset/limit. -/
def statsResSample : Response :=
  { Code := 200, Result := [], ResultTotal := 0,
    Request :=
      { Table := "hosts", Columns := [], Sort' := [],
        Stats := [{ StatsType := StatsType.Counter, Stats := 5, StatsCount := 2 },
                  { StatsType := StatsType.Average, Stats := 6, StatsCount := 0 }],
        Limit := 0, Offset := 0, Backends := [], OutputFormat := "",
        SendColumnsHeader := false, ResponseFixed16 := false },
    Error := none, Failed := [], Columns := [] }

/-- Witness for C2 at `statsResSample`: post-processing succeeds and
yields the single synthesized row `[5, 0]`, and each `statCell` clause
is exercised on a concrete spec. -/
theorem claim_C2_witness :
    (statsResSample.Request.Stats ≠ [] ∧
      (statsStep statsResSample).Result = [statsResSample.Request.Stats.map statCell] ∧
      (statsStep statsResSample).Result = [[Value.VFloat 5, Value.VInt 0]]) ∧
    statCell { StatsType := StatsType.Average, Stats := 6, StatsCount := 0 } = Value.VInt 0 ∧
    statCell { StatsType := StatsType.Average, Stats := 6, StatsCount := 3 } =
      Value.VFloat (6 / 3) ∧
    statCell { StatsType := StatsType.Counter, Stats := 5, StatsCount := 2 } =
      Value.VFloat 5 := by
  refine ⟨⟨by decide, ?_, by decide⟩, claim_C2.2.1 _ rfl, claim_C2.2.2.1 _ (by decide) rfl,
    claim_C2.2.2.2 _ (by decide) (Or.inl rfl)⟩
  exact (claim_C2.1 statsResSample (statsStep statsResSample) (by decide) rfl).1

/-! ## C4 and C10 -/

/-- C4: the multi-key comparator compares Time/Int/Float columns by
numeric value and String columns lexicographically, honouring the
requested direction; whenever a key compares equal it falls through to
the next sort key; and with zero sort keys the sort step leaves the
result untouched. -/
theorem claim_C4 :
    (∀ (cols : List Column) (s : SortField) (rest : List SortField) (r1 r2 : Row)
      (c : Column) (a b : Value),
      cols.get? s.Index = some c →
      (c.Typ = ColumnType.TimeCol ∨ c.Typ = ColumnType.IntCol ∨ c.Typ = ColumnType.FloatCol) →
      r1.get? s.Index = some a → r2.get? s.Index = some b →
      NumberToFloat a ≠ NumberToFloat b →
      lessRow cols (s :: rest) r1 r2 =
        some (if s.Direction = Direction.Asc then decide (NumberToFloat a < NumberToFloat b)
          else decide (NumberToFloat b < NumberToFloat a))) ∧
    (∀ (cols : List Column) (s : SortField) (rest : List SortField) (r1 r2 : Row)
      (c : Column) (a b : Value),
      cols.get? s.Index = some c →
      (c.Typ = ColumnType.TimeCol ∨ c.Typ = ColumnType.IntCol ∨ c.Typ = ColumnType.FloatCol) →
      r1.get? s.Index = some a → r2.get? s.Index = some b →
      NumberToFloat a = NumberToFloat b →
      lessRow cols (s :: rest) r1 r2 = lessRow cols rest r1 r2) ∧
    (∀ (cols : List Column) (s : SortField) (rest : List SortField) (r1 r2 : Row)
      (c : Column) (s1 s2 : String),
      cols.get? s.Index = some c → c.Typ = ColumnType.StringCol →
      r1.get? s.Index = some (Value.VStr s1) → r2.get? s.Index = some (Value.VStr s2) →
      s1 ≠ s2 →
      lessRow cols (s :: rest) r1 r2 =
        some (if s.Direction = Direction.Asc then decide (s1 < s2) else decide (s2 < s1))) ∧
    (∀ (cols : List Column) (s : SortField) (rest : List SortField) (r1 r2 : Row)
      (c : Column) (s1 : String),
      cols.get? s.Index = some c → c.Typ = ColumnType.StringCol →
      r1.get? s.Index = some (Value.VStr s1) → r2.get? s.Index = some (Value.VStr s1) →
      lessRow cols (s :: rest) r1 r2 = lessRow cols rest r1 r2) ∧
    (∀ res : Response, res.Request.Sort' = [] → sortStep res = res) := by
  refine ⟨?_, ?_, ?_, ?_, ?_⟩
  · intro cols s rest r1 r2 c a b hc ht ha hb hne
    rcases ht with h | h | h <;>
    · simp only [lessRow, hc, h, ha, hb]
      rw [if_neg hne]
      by_cases hd : s.Direction = Direction.Asc <;> simp [hd]
  · intro cols s rest r1 r2 c a b hc ht ha hb heq
    rcases ht with h | h | h <;>
    · simp only [lessRow, hc, h, ha, hb]
      rw [if_pos heq]
  · intro cols s rest r1 r2 c s1 s2 hc ht ha hb hne
    simp only [lessRow, hc, ht, ha, hb]
    rw [if_neg hne]
    by_cases hd : s.Direction = Direction.Asc <;> simp [hd]
  · intro cols s rest r1 r2 c s1 hc ht ha hb
    simp only [lessRow, hc, ht, ha, hb]
    simp
  · intro res h
    unfold sortStep
    rw [h]
    simp

/-- Numeric sample column for the comparator witnesses. -/
def colAge : Column :=
  { Name := "age", Typ := ColumnType.IntCol, Index := 0, RefIndex := 0,
    Update := UpdateType.NoUpdate }

/-- String sample column for the comparator witnesses. -/
def colName : Column :=
  { Name := "name", Typ := ColumnType.StringCol, Index := 1, RefIndex := 0,
    Update := UpdateType.NoUpdate }

/-- Two-column schema used by the comparator witnesses. -/
def colsSample : List Column := [colAge, colName]

/-- Sample sort key: `age`, descending. -/
def keyAgeDesc : SortField := { Name := "age", Direction := Direction.Desc, Index := 0 }

/-- Sample sort key: `age`, ascending. -/
def keyAgeAsc : SortField := { Name := "age", Direction := Direction.Asc, Index := 0 }

/-- Sample sort key: `name`, ascending. -/
def keyNameAsc : SortField := { Name := "name", Direction := Direction.Asc, Index := 1 }

/-- Sample sort key: `name`, descending. -/
def keyNameDesc : SortField := { Name := "name", Direction := Direction.Desc, Index := 1 }

/-- Witness for C4: each comparator clause exercised on concrete rows —
a descending numeric key, a numeric tie falling through to the next key,
an ascending string key, a string tie falling through, and the untouched
zero-sort-key response. -/
theorem claim_C4_witness :
    lessRow colsSample [keyAgeDesc] [Value.VInt 3] [Value.VInt 5] = some false ∧
    lessRow colsSample [keyAgeAsc, keyNameAsc]
      [Value.VInt 4, Value.VStr "x"] [Value.VInt 4, Value.VStr "y"] =
      lessRow colsSample [keyNameAsc]
        [Value.VInt 4, Value.VStr "x"] [Value.VInt 4, Value.VStr "y"] ∧
    lessRow colsSample [keyNameAsc]
      [Value.VInt 4, Value.VStr "x"] [Value.VInt 4, Value.VStr "y"] = some true ∧
    lessRow colsSample [keyNameDesc]
      [Value.VInt 4, Value.VStr "x"] [Value.VInt 7, Value.VStr "x"] = some true ∧
    sortStep statsResSample = statsResSample := by
  refine ⟨?_, ?_, ?_, ?_, claim_C4.2.2.2.2 statsResSample rfl⟩
  · rw [claim_C4.1 colsSample keyAgeDesc [] [Value.VInt 3] [Value.VInt 5] colAge
      (Value.VInt 3) (Value.VInt 5) rfl (Or.inr (Or.inl rfl)) rfl rfl (by decide)]
    decide
  · exact claim_C4.2.1 colsSample keyAgeAsc [keyNameAsc]
      [Value.VInt 4, Value.VStr "x"] [Value.VInt 4, Value.VStr "y"] colAge
      (Value.VInt 4) (Value.VInt 4) rfl (Or.inr (Or.inl rfl)) rfl rfl (by decide)
  · rw [claim_C4.2.2.1 colsSample keyNameAsc []
      [Value.VInt 4, Value.VStr "x"] [Value.VInt 4, Value.VStr "y"] colName
      "x" "y" rfl rfl rfl rfl (by simp)]
    simp [keyNameAsc]
    decide
  · rw [claim_C4.2.2.2.1 colsSample keyNameDesc []
      [Value.VInt 4, Value.VStr "x"] [Value.VInt 7, Value.VStr "x"] colName
      "x" rfl rfl rfl rfl]
    decide

/-- C10 counterexample: under a single descending list-typed sort key,
a row compared with itself — all cells trivially equal — yields `false`,
not `true`: the comparator returns `direction == Asc` for list columns
without any equality fallthrough. -/
theorem claim_C10_counterexample :
    lessRow
      [{ Name := "l", Typ := ColumnType.IntListCol, Index := 0, RefIndex := 0,
         Update := UpdateType.NoUpdate }]
      [{ Name := "l", Direction := Direction.Desc, Index := 0 }]
      [Value.VIntList []] [Value.VIntList []] = some false := by
  decide

/-- C10 (amended): for any two rows whose cells compare equal at every
sort-key position, where each sort key has numeric (Time/Int/Float) type
or String type with string cells on both sides, the comparator returns
`true` — in particular for a row compared against itself under such
keys, so `lessRow` is not irreflexive there. -/
theorem claim_C10 (cols : List Column) (specs : List SortField) (r1 r2 : Row)
    (h : ∀ s ∈ specs, ∃ c, cols.get? s.Index = some c ∧
      (((c.Typ = ColumnType.TimeCol ∨ c.Typ = ColumnType.IntCol ∨
          c.Typ = ColumnType.FloatCol) ∧
        ∃ a b, r1.get? s.Index = some a ∧ r2.get? s.Index = some b ∧
          NumberToFloat a = NumberToFloat b) ∨
       (c.Typ = ColumnType.StringCol ∧
        ∃ str, r1.get? s.Index = some (Value.VStr str) ∧
          r2.get? s.Index = some (Value.VStr str)))) :
    lessRow cols specs r1 r2 = some true := by
  induction specs with
  | nil => rfl
  | cons s rest ih =>
    obtain ⟨c, hc, hcase⟩ := h s (List.mem_cons_self s rest)
    have hrest : ∀ t ∈ rest, _ := fun t ht => h t (List.mem_cons_of_mem s ht)
    rcases hcase with ⟨ht, a, b, ha, hb, heq⟩ | ⟨ht, str, ha, hb⟩
    · rcases ht with h1 | h1 | h1 <;>
      · simp only [lessRow, hc, h1, ha, hb]
        rw [if_pos heq]
        exact ih hrest
    · simp only [lessRow, hc, ht, ha, hb]
      rw [if_pos trivial]
      exact ih hrest

/-- Witness for C10 at a concrete self-comparison: one numeric and one
string key, both equal, yield `some true`. -/
theorem claim_C10_witness :
    lessRow colsSample [keyAgeDesc, keyNameAsc]
      [Value.VInt 4, Value.VStr "x"] [Value.VInt 4, Value.VStr "x"] = some true := by
  apply claim_C10
  intro s hs
  simp only [List.mem_cons, List.not_mem_nil, or_false] at hs
  rcases hs with rfl | rfl
  · exact ⟨colAge, rfl, Or.inl ⟨Or.inr (Or.inl rfl), Value.VInt 4, Value.VInt 4, rfl, rfl, rfl⟩⟩
  · exact ⟨colName, rfl, Or.inr ⟨rfl, "x", rfl, rfl⟩⟩

/-! ## C6 -/

theorem insertVirt_eq (p : Peer) (table : Table) (numPerRow j : Nat) (col : Column)
    (row : Row) (h : col.Index ≤ row.length) :
    insertVirt p table numPerRow j col row =
      some (row.take col.Index ++
        p.getRowValue col.RefIndex
          (row.take col.Index ++ row.getD col.Index (Value.VInt 0) :: row.drop col.Index)
          j table numPerRow :: row.drop col.Index) := by
  unfold insertVirt
  rw [if_pos h]

theorem insertVirt_length (p : Peer) (table : Table) (numPerRow j : Nat) (col : Column)
    (row row2 : Row) (h : insertVirt p table numPerRow j col row = some row2) :
    row2.length = row.length + 1 := by
  unfold insertVirt at h
  split at h
  · injection h with h
    subst h
    rename_i hle
    simp [List.length_append, List.length_take, List.length_drop]
    omega
  · exact absurd h (by simp)

theorem spliceRow_length (p : Peer) (table : Table) (numPerRow j : Nat)
    (virtCols : List Column) :
    ∀ (row : Row), (∀ c ∈ virtCols, c.Index ≤ row.length) →
    ∃ row2, spliceRow p table numPerRow j virtCols row = some row2 ∧
      row2.length = row.length + virtCols.length := by
  induction virtCols with
  | nil => exact fun row _ => ⟨row, rfl, by simp⟩
  | cons c cs ih =>
    intro row hb
    have hc : c.Index ≤ row.length := hb c (List.mem_cons_self c cs)
    obtain ⟨row1, h1, hlen1⟩ :
        ∃ row1, insertVirt p table numPerRow j c row = some row1 ∧
          row1.length = row.length + 1 :=
      ⟨_, insertVirt_eq p table numPerRow j c row hc,
        insertVirt_length p table numPerRow j c row _
          (insertVirt_eq p table numPerRow j c row hc)⟩
    obtain ⟨row2, h2, hlen2⟩ := ih row1 (fun c2 hc2 => by
      rw [hlen1]
      exact Nat.le_succ_of_le (hb c2 (List.mem_cons_of_mem c hc2)))
    refine ⟨row2, ?_, ?_⟩
    · simp only [spliceRow, h1]
      exact h2
    · rw [hlen2, hlen1]
      simp only [List.length_cons]
      omega

/-- C6: splicing a requested virtual column into a passthrough row
inserts the resolved value at the column's output position, shifting all
later cells right by one (the row keeps the form
`take i ++ value :: drop i`); the row length grows by exactly one per
virtual column; and a row `[r0, r1]` with one virtual column at position
1 becomes `[r0, value, r1]`. -/
theorem claim_C6 :
    (∀ (p : Peer) (table : Table) (numPerRow j : Nat) (col : Column) (row : Row),
      col.Index ≤ row.length →
      insertVirt p table numPerRow j col row =
        some (row.take col.Index ++
          p.getRowValue col.RefIndex
            (row.take col.Index ++ row.getD col.Index (Value.VInt 0) :: row.drop col.Index)
            j table numPerRow :: row.drop col.Index)) ∧
    (∀ (p : Peer) (table : Table) (numPerRow j : Nat) (col : Column) (row row2 : Row),
      insertVirt p table numPerRow j col row = some row2 →
      row2.length = row.length + 1) ∧
    (∀ (p : Peer) (table : Table) (numPerRow j : Nat) (virtCols : List Column) (row : Row),
      (∀ c ∈ virtCols, c.Index ≤ row.length) →
      ∃ row2, spliceRow p table numPerRow j virtCols row = some row2 ∧
        row2.length = row.length + virtCols.length) ∧
    (∀ (p : Peer) (table : Table) (numPerRow j : Nat) (col : Column) (r0 r1 : Value),
      col.Index = 1 →
      spliceRow p table numPerRow j [col] [r0, r1] =
        some [r0, p.getRowValue col.RefIndex [r0, r1, r1] j table numPerRow, r1]) := by
  refine ⟨insertVirt_eq, insertVirt_length, fun p table numPerRow j virtCols row h =>
    spliceRow_length p table numPerRow j virtCols row h, ?_⟩
  intro p table numPerRow j col r0 r1 hIdx
  simp [spliceRow, insertVirt, hIdx]

/-- Sample peer whose virtual-value resolver returns a fixed marker. -/
def peerSample : Peer :=
  { ID := "A", Name := "peer-a", PStatus := PeerStatus.PeerStatusUp, LastError := "",
    Idling := false, query := fun _ => Except.ok [[Value.VInt 7]],
    getRowValue := fun _ _ _ _ _ => Value.VStr "virt" }

/-- Witness for C6: splicing one virtual column at position 1 into the
row `[10, 20]` yields `[10, "virt", 20]`, and the in-bounds splice of
that single column grows the row length to 3. -/
theorem claim_C6_witness :
    spliceRow peerSample emptyTable 2 0
      [{ Name := "status", Typ := ColumnType.IntCol, Index := 1, RefIndex := 3,
         Update := UpdateType.NoUpdate }]
      [Value.VInt 10, Value.VInt 20] =
      some [Value.VInt 10, Value.VStr "virt", Value.VInt 20] ∧
    (∃ row2, spliceRow peerSample emptyTable 2 0
      [{ Name := "status", Typ := ColumnType.IntCol, Index := 1, RefIndex := 3,
         Update := UpdateType.NoUpdate }]
      [Value.VInt 10, Value.VInt 20] = some row2 ∧ row2.length = 2 + 1) := by
  constructor
  · rw [claim_C6.2.2.2 peerSample emptyTable 2 0 _ (Value.VInt 10) (Value.VInt 20) rfl]
    rfl
  · exact claim_C6.2.2.1 peerSample emptyTable 2 0 _ _ (by intro c hc; fin_cases hc; decide)

/-! ## C7 -/

/-- C7: a request with empty `Columns` and empty `Stats` is expanded to
exactly the table columns whose update policy is Static, Dynamic or
Virtual-Update or whose type is Virtual, in schema order, and the
column-header-emission flag is set. -/
theorem claim_C7 (table : Table) (req : Request)
    (h1 : req.Columns = []) (h2 : req.Stats = []) :
    (expandColumnsReq table req).Columns =
      (table.Columns.filter (fun col =>
        decide (col.Update = UpdateType.StaticUpdate ∨ col.Update = UpdateType.DynamicUpdate ∨
          col.Update = UpdateType.VirtUpdate ∨ col.Typ = ColumnType.VirtCol))).map
        Column.Name ∧
    (expandColumnsReq table req).SendColumnsHeader = true := by
  unfold expandColumnsReq
  rw [if_pos ⟨h1, h2⟩]
  exact ⟨rfl, rfl⟩

/-- Sample schema for the C7 witness: a static column, a dynamic column,
a virtual-type column and one column with no update policy (which must
be filtered out). -/
def schemaSample : Table :=
  { Name := "hosts",
    Columns :=
      [{ Name := "name", Typ := ColumnType.StringCol, Index := 0, RefIndex := 0,
         Update := UpdateType.StaticUpdate },
       { Name := "state", Typ := ColumnType.IntCol, Index := 1, RefIndex := 0,
         Update := UpdateType.DynamicUpdate },
       { Name := "peer_key", Typ := ColumnType.VirtCol, Index := 2, RefIndex := 0,
         Update := UpdateType.NoUpdate },
       { Name := "skipme", Typ := ColumnType.StringCol, Index := 3, RefIndex := 0,
         Update := UpdateType.NoUpdate }],
    ColumnsIndex := [("name", 0), ("state", 1), ("peer_key", 2), ("skipme", 3)],
    PassthroughOnly := false, DynamicColCacheIndexes := [] }

/-- An empty request against `schemaSample` (no columns, no stats). -/
def emptyColsReqSample : Request :=
  { Table := "hosts", Columns := [], Stats := [], Sort' := [], Limit := 0, Offset := 0,
    Backends := [], OutputFormat := "", SendColumnsHeader := false,
    ResponseFixed16 := false }

/-- Witness for C7: the empty request expands to the three
Static/Dynamic/Virtual columns of `schemaSample`, in schema order, with
the header flag set. -/
theorem claim_C7_witness :
    (expandColumnsReq schemaSample emptyColsReqSample).Columns = ["name", "state", "peer_key"] ∧
    (expandColumnsReq schemaSample emptyColsReqSample).SendColumnsHeader = true := by
  have h := claim_C7 schemaSample emptyColsReqSample rfl rfl
  exact ⟨by rw [h.1]; decide, h.2⟩

/-! ## C8 -/

/-- C8: with fixed framing requested, the send is preceded by the status
line `"<code> <11-wide right-justified size>\n"` where the encoded size
is the body byte length plus 1 for the trailing newline; a 42-byte body
with code 200 yields exactly `"200          43\n"`; and a trailing
newline always follows the body, framed or not. -/
theorem claim_C8 :
    (∀ (code : Int) (body : String),
      sendFrames true code body = [statusLine code (body.utf8ByteSize + 1), body, "\n"]) ∧
    (∀ body : String, body.utf8ByteSize = 42 →
      sendFrames true 200 body = ["200          43\n", body, "\n"]) ∧
    (∀ (f16 : Bool) (code : Int) (body : String),
      ∃ pre, sendFrames f16 code body = pre ++ [body, "\n"]) := by
  refine ⟨fun code body => rfl, ?_, ?_⟩
  · intro body h
    have hs : statusLine 200 43 = "200          43\n" := by decide
    simp only [sendFrames, h, if_true]
    rw [hs]
    rfl
  · intro f16 code body
    cases f16
    · exact ⟨[], rfl⟩
    · exact ⟨[statusLine code (body.utf8ByteSize + 1)], rfl⟩

/-- A 42-byte ASCII body used by the C8 witness. -/
def body42 : String := "abcdefghijklmnopqrstuvwxyz0123456789abcdef"

/-- Witness for C8: framing the concrete 42-byte body with code 200
produces the status line `"200          43\n"`, then the body, then the
trailing newline. -/
theorem claim_C8_witness :
    sendFrames true 200 body42 = ["200          43\n", body42, "\n"] := by
  exact claim_C8.2.1 body42 (by decide)

/-! ## C9 -/

/-- Sample response for C9: the header flag is set, one column and one
stat spec are requested. -/
def headerResSample : Response :=
  { Code := 200, Result := [[Value.VInt 1]], ResultTotal := 0,
    Request :=
      { Table := "hosts", Columns := ["name"],
        Stats := [{ StatsType := StatsType.Counter, Stats := 1, StatsCount := 1 }],
        Sort' := [], Limit := 0, Offset := 0, Backends := [], OutputFormat := "",
        SendColumnsHeader := true, ResponseFixed16 := false },
    Error := none, Failed := [], Columns := [] }

/-- C9 counterexample: with one requested column and one stat spec, the
prepended header row is `["name", nil]` — the stat cell is Go's nil
interface value, not a stat label: there is no list of (string) stat
labels whose names, appended to the column names, make up the header
row. -/
theorem claim_C9_counterexample :
    (prependHeader headerResSample).Result.head? =
      some [Value.VStr "name", Value.VNull] ∧
    ¬ ∃ labels : List String,
      (prependHeader headerResSample).Result.head? =
        some ((headerResSample.Request.Columns ++ labels).map Value.VStr) := by
  constructor
  · rfl
  · rintro ⟨labels, h⟩
    rw [show (prependHeader headerResSample).Result.head? =
      some [Value.VStr "name", Value.VNull] from rfl] at h
    rcases labels with _ | ⟨l, ls⟩ <;> simp [headerResSample] at h

/-- C9 (amended): when the column-header flag is set, `Send` prepends
exactly one header row holding one cell per requested column and one per
stat spec; the column cells hold the column names, while every stat cell
is left nil (Go's zero interface value) — no stat labels are emitted. -/
theorem claim_C9 (res : Response) (h : res.Request.SendColumnsHeader = true) :
    (prependHeader res).Result =
      (res.Request.Columns.map Value.VStr ++
        List.replicate res.Request.Stats.length Value.VNull) :: res.Result ∧
    (prependHeader res).Result.length = res.Result.length + 1 ∧
    ∀ hr, (prependHeader res).Result.head? = some hr →
      hr.length = res.Request.Columns.length + res.Request.Stats.length := by
  have h1 : (prependHeader res).Result =
      (res.Request.Columns.map Value.VStr ++
        List.replicate res.Request.Stats.length Value.VNull) :: res.Result := by
    unfold prependHeader
    rw [h]
    simp
  refine ⟨h1, by rw [h1]; rfl, ?_⟩
  intro hr hhr
  rw [h1] at hhr
  injection hhr with hhr
  subst hhr
  simp

/-- Witness for C9 at `headerResSample`: the header row `["name", nil]`
is prepended, the result grows by one row, and the header row has one
cell per column plus one per stat spec. -/
theorem claim_C9_witness :
    (prependHeader headerResSample).Result =
      [[Value.VStr "name", Value.VNull], [Value.VInt 1]] ∧
    (prependHeader headerResSample).Result.length =
      headerResSample.Result.length + 1 := by
  have h := claim_C9 headerResSample rfl
  exact ⟨by rw [h.1]; rfl, h.2.1⟩

/-! ## C3 -/

theorem spliceRows_nilVirt (p : Peer) (table : Table) (numPerRow : Nat) :
    ∀ (j : Nat) (rows : List Row), spliceRows p table numPerRow [] j rows = some rows := by
  intro j rows
  induction rows generalizing j with
  | nil => rfl
  | cons r rs ih => simp [spliceRows, spliceRow, ih]

/-- C3: in passthrough mode with peers A (reachable, succeeding),
B (Down) and C (reachable, erroring), and no virtual columns requested:
no call is issued to B and its last known error is recorded in `Failed`;
C's call error is recorded in `Failed` without aborting the other units;
the merged result is exactly A's rows; and `Response.Error` stays unset. -/
theorem claim_C3 (A B C : Peer) (table : Table) (columns : List Column) (numPerRow : Nat)
    (res : Response) (rowsA : List Row) (errC : String)
    (hvirt : columns.filter (fun c => decide (0 < c.RefIndex)) = [])
    (hA : ¬ A.PStatus = PeerStatus.PeerStatusDown)
    (hB : B.PStatus = PeerStatus.PeerStatusDown)
    (hC : ¬ C.PStatus = PeerStatus.PeerStatusDown)
    (hqA : A.query (passthroughRequest res.Request
      ((columns.filter (fun c => decide (c.RefIndex = 0))).map Column.Name)) =
      Except.ok rowsA)
    (hqC : C.query (passthroughRequest res.Request
      ((columns.filter (fun c => decide (c.RefIndex = 0))).map Column.Name)) =
      Except.error errC)
    (hErr : res.Error = none)
    (hBA : B.ID ≠ A.ID) (hBC : B.ID ≠ C.ID) :
    ∃ out calls,
      buildPassThroughResult [A, B, C] table columns numPerRow res =
        ExecResult.ok (out, calls) ∧
      out.Result = rowsA ∧
      out.Failed = res.Failed ++ [(B.ID, B.LastError), (C.ID, errC)] ∧
      out.Error = none ∧
      calls = [A.ID, C.ID] ∧
      B.ID ∉ calls := by
  refine ⟨{ res with Result := rowsA, Failed := res.Failed ++ [(B.ID, B.LastError), (C.ID, errC)] }, [A.ID, C.ID], ?_, rfl, rfl, hErr, rfl, ?_⟩
  · simp only [buildPassThroughResult]
    rw [hvirt]
    simp only [passThroughLoop, if_neg hA, if_pos hB, if_neg hC, hqA, hqC,
      spliceRows_nilVirt]
    simp
  · simp only [List.mem_cons, List.not_mem_nil, or_false]
    rintro (h | h)
    · exact hBA h
    · exact hBC h

/-- Sample passthrough peer A: reachable, returns two rows. -/
def peerA : Peer :=
  { ID := "A", Name := "peer-a", PStatus := PeerStatus.PeerStatusUp, LastError := "",
    Idling := false, query := fun _ => Except.ok [[Value.VInt 1], [Value.VInt 2]],
    getRowValue := fun _ _ _ _ _ => Value.VNull }

/-- Sample passthrough peer B: Down with a recorded last error. -/
def peerB : Peer :=
  { ID := "B", Name := "peer-b", PStatus := PeerStatus.PeerStatusDown,
    LastError := "connection refused", Idling := false,
    query := fun _ => Except.ok [], getRowValue := fun _ _ _ _ _ => Value.VNull }

/-- Sample passthrough peer C: reachable but its remote call errors. -/
def peerC : Peer :=
  { ID := "C", Name := "peer-c", PStatus := PeerStatus.PeerStatusUp, LastError := "",
    Idling := false, query := fun _ => Except.error "timeout",
    getRowValue := fun _ _ _ _ _ => Value.VNull }

/-- Fresh response accumulator entering the passthrough collector. -/
def ptResSample : Response :=
  { Code := 200, Result := [], ResultTotal := 0, Request := emptyColsReqSample,
    Error := none, Failed := [], Columns := [] }

/-- Witness for C3 on the concrete peers A/B/C: B is never called, both
failures land in `Failed`, the merged matrix is A's two rows and the
error stays unset. -/
theorem claim_C3_witness :
    ∃ out calls,
      buildPassThroughResult [peerA, peerB, peerC] emptyTable [colAge] 1 ptResSample =
        ExecResult.ok (out, calls) ∧
      out.Result = [[Value.VInt 1], [Value.VInt 2]] ∧
      out.Failed = ptResSample.Failed ++ [(peerB.ID, peerB.LastError), (peerC.ID, "timeout")] ∧
      out.Error = none ∧
      calls = [peerA.ID, peerC.ID] ∧
      peerB.ID ∉ calls :=
  claim_C3 peerA peerB peerC emptyTable [colAge] 1 ptResSample
    [[Value.VInt 1], [Value.VInt 2]] "timeout" (by decide) (by decide) rfl (by decide)
    rfl rfl rfl (by decide) (by decide)

/-! ## C5 -/

theorem lookup_mem_snd [BEq α] :
    ∀ (l : List (α × β)) (a : α) (b : β), l.lookup a = some b → ∃ e ∈ l, e.snd = b := by
  intro l
  induction l with
  | nil => intro a b h; cases h
  | cons e rest ih =>
    intro a b h
    obtain ⟨k, v⟩ := e
    simp only [List.lookup] at h
    split at h
    · injection h with h
      exact ⟨(k, v), List.mem_cons_self _ _, h⟩
    · obtain ⟨e, he, hb⟩ := ih a b h
      exact ⟨e, List.mem_cons_of_mem _ he, hb⟩

theorem expandColumnsReq_of_ne (table : Table) (req : Request) (h : req.Columns ≠ []) :
    expandColumnsReq table req = req := by
  unfold expandColumnsReq
  rw [if_neg (fun hand => h hand.1)]

theorem expandColumnsReq_fields (table : Table) (req : Request) :
    (expandColumnsReq table req).Table = req.Table ∧
    (expandColumnsReq table req).Sort' = req.Sort' ∧
    (expandColumnsReq table req).Backends = req.Backends ∧
    (expandColumnsReq table req).Stats = req.Stats := by
  unfold expandColumnsReq
  split <;> exact ⟨rfl, rfl, rfl, rfl⟩

theorem resolveColumns_unknown (reqTable : String) (table : Table)
    (wf : ∀ n i, table.ColumnsIndex.lookup n = some i → i < table.Columns.length) :
    ∀ (cols : List String), (∃ c ∈ cols, table.ColumnsIndex.lookup (toLowerStr c) = none) →
    ∀ (j : Nat) (indexes : List Int) (columns : List Column) (rcm : List (String × Nat)),
    ∃ c0 ∈ cols, table.ColumnsIndex.lookup (toLowerStr c0) = none ∧
      resolveColumns reqTable table cols j indexes columns rcm =
        ExecResult.badRequest
          ("bad request: table " ++ reqTable ++ " has no column " ++ (toLowerStr c0)) := by
  intro cols
  induction cols with
  | nil =>
    rintro ⟨c, hc, _⟩
    exact absurd hc (List.not_mem_nil c)
  | cons c rest ih =>
    rintro ⟨c1, hc1, hn1⟩ j indexes columns rcm
    rcases hl : table.ColumnsIndex.lookup (toLowerStr c) with _ | i
    · exact ⟨c, List.mem_cons_self c rest, hl, by simp only [resolveColumns, hl]⟩
    · have hi : i < table.Columns.length := wf _ _ hl
      obtain ⟨tc, hget⟩ : ∃ tc, table.Columns.get? i = some tc :=
        ⟨_, List.get?_eq_get hi⟩
      have hc1rest : c1 ∈ rest := by
        rcases List.mem_cons.mp hc1 with rfl | h
        · rw [hl] at hn1
          cases hn1
        · exact h
      obtain ⟨c0, hc0, hn0, heq⟩ := ih ⟨c1, hc1rest, hn1⟩ (j + 1)
        (indexes ++ [if tc.Typ = ColumnType.VirtCol then (VirtKeyMap (toLowerStr c)).Index else (i : Int)])
        (columns ++ [if tc.Typ = ColumnType.VirtCol then { Name := (toLowerStr c), Typ := (VirtKeyMap (toLowerStr c)).Typ, Index := j, RefIndex := i, Update := UpdateType.NoUpdate } else { Name := (toLowerStr c), Typ := tc.Typ, Index := j, RefIndex := 0, Update := UpdateType.NoUpdate }])
        (((toLowerStr c), j) :: rcm)
      refine ⟨c0, List.mem_cons_of_mem c hc0, hn0, ?_⟩
      simp only [resolveColumns, hl, hget]
      exact heq

theorem checkBackends_unknown (ds : List (String × Peer)) :
    ∀ (bs : List String), (∃ b ∈ bs, ds.lookup b = none) →
    ∃ b0 ∈ bs, ds.lookup b0 = none ∧
      checkBackends ds bs =
        ExecResult.badRequest ("bad request: backend " ++ b0 ++ " does not exist") := by
  intro bs
  induction bs with
  | nil =>
    rintro ⟨b, hb, _⟩
    exact absurd hb (List.not_mem_nil b)
  | cons b rest ih =>
    rintro ⟨b1, hb1, hn1⟩
    rcases hl : ds.lookup b with _ | p
    · exact ⟨b, List.mem_cons_self b rest, hl, by simp only [checkBackends, hl]⟩
    · have hb1rest : b1 ∈ rest := by
        rcases List.mem_cons.mp hb1 with rfl | h
        · rw [hl] at hn1
          cases hn1
        · exact h
      obtain ⟨b0, hb0, hn0, heq⟩ := ih ⟨b1, hb1rest, hn1⟩
      refine ⟨b0, List.mem_cons_of_mem b hb0, hn0, ?_⟩
      simp only [checkBackends, hl, heq]

theorem validateSort_fail (reqTable : String) (table : Table) (rcm : List (String × Nat)) :
    ∀ (sorts : List SortField),
    (∃ s ∈ sorts, table.ColumnsIndex.lookup s.Name = none ∨ rcm.lookup s.Name = none) →
    ∃ s0 ∈ sorts,
      (validateSort reqTable table rcm sorts =
        ExecResult.badRequest
          ("bad request: table " ++ reqTable ++ " has no column " ++ s0.Name ++ " to sort") ∨
       validateSort reqTable table rcm sorts =
        ExecResult.badRequest ("bad request: sort column " ++ s0.Name ++ " not in result set")) := by
  intro sorts
  induction sorts with
  | nil =>
    rintro ⟨s, hs, _⟩
    exact absurd hs (List.not_mem_nil s)
  | cons s rest ih =>
    rintro ⟨s1, hs1, hn1⟩
    rcases hl : table.ColumnsIndex.lookup s.Name with _ | i
    · exact ⟨s, List.mem_cons_self s rest, Or.inl (by simp only [validateSort, hl])⟩
    · rcases hr : rcm.lookup s.Name with _ | v
      · exact ⟨s, List.mem_cons_self s rest, Or.inr (by simp only [validateSort, hl, hr])⟩
      · have hs1rest : s1 ∈ rest := by
          rcases List.mem_cons.mp hs1 with rfl | h
          · rcases hn1 with hn1 | hn1
            · rw [hl] at hn1
              cases hn1
            · rw [hr] at hn1
              cases hn1
          · exact h
        obtain ⟨s0, hs0, hcase⟩ := ih ⟨s1, hs1rest, hn1⟩
        refine ⟨s0, List.mem_cons_of_mem s hs0, ?_⟩
        rcases hcase with heq | heq
        · exact Or.inl (by simp only [validateSort, hl, hr]; rw [heq])
        · exact Or.inr (by simp only [validateSort, hl, hr]; rw [heq])

theorem buildResponseIndexes_ok_fields (table : Table) (req : Request) (ix : List Int)
    (cols : List Column) (req2 : Request)
    (h : buildResponseIndexes table req = ExecResult.ok (ix, cols, req2)) :
    req2.Backends = req.Backends ∧ req2.Table = req.Table := by
  simp only [buildResponseIndexes] at h
  split at h
  · exact absurd h (by simp)
  · exact absurd h (by simp)
  · split at h
    · exact absurd h (by simp)
    · exact absurd h (by simp)
    · injection h with h
      injection h with h1 h
      injection h with h2 h3
      subst h3
      exact ⟨(expandColumnsReq_fields table req).2.2.1, (expandColumnsReq_fields table req).1⟩

/-- C5: a request with an unknown column name, an unknown backend id, or
a sort column missing from the schema or from the resolved output set
makes response building return a bad-request error naming the offending
table/column/backend, and the recorded event trace is empty: no spin-up
signal, no peer query, no local merge and no post-processing happen. -/
theorem claim_C5 :
    (∀ (env : Env) (req : Request) (table : Table),
      (env.tables.lookup req.Table).getD emptyTable = table →
      (∀ n i, table.ColumnsIndex.lookup n = some i → i < table.Columns.length) →
      (∃ c ∈ req.Columns, table.ColumnsIndex.lookup (toLowerStr c) = none) →
      ∃ c0 ∈ req.Columns,
        (buildResponse env req).1 = ExecResult.badRequest
          ("bad request: table " ++ req.Table ++ " has no column " ++ (toLowerStr c0)) ∧
        (buildResponse env req).2 = []) ∧
    (∀ (env : Env) (req : Request) (table : Table) (ix : List Int) (cols : List Column)
      (req2 : Request),
      (env.tables.lookup req.Table).getD emptyTable = table →
      buildResponseIndexes table req = ExecResult.ok (ix, cols, req2) →
      (∃ b ∈ req.Backends, env.dataStore.lookup b = none) →
      ∃ b0 ∈ req.Backends,
        (buildResponse env req).1 = ExecResult.badRequest
          ("bad request: backend " ++ b0 ++ " does not exist") ∧
        (buildResponse env req).2 = []) ∧
    (∀ (env : Env) (req : Request) (table : Table) (ix : List Int) (cols : List Column)
      (rcm : List (String × Nat)),
      (env.tables.lookup req.Table).getD emptyTable = table →
      resolveColumns req.Table table (expandColumnsReq table req).Columns 0 [] [] [] =
        ExecResult.ok (ix, cols, rcm) →
      (∃ s ∈ req.Sort', table.ColumnsIndex.lookup s.Name = none ∨ rcm.lookup s.Name = none) →
      ∃ s0 ∈ req.Sort',
        ((buildResponse env req).1 = ExecResult.badRequest
            ("bad request: table " ++ req.Table ++ " has no column " ++ s0.Name ++ " to sort") ∨
         (buildResponse env req).1 = ExecResult.badRequest
            ("bad request: sort column " ++ s0.Name ++ " not in result set")) ∧
        (buildResponse env req).2 = []) := by
  refine ⟨?_, ?_, ?_⟩
  · intro env req table htab hwf hbad
    obtain ⟨c, hc, hn⟩ := hbad
    have hne : req.Columns ≠ [] := List.ne_nil_of_mem hc
    have hexp : expandColumnsReq table req = req := expandColumnsReq_of_ne table req hne
    obtain ⟨c0, hc0, hn0, heq⟩ :=
      resolveColumns_unknown req.Table table hwf req.Columns ⟨c, hc, hn⟩ 0 [] [] []
    have hidx : buildResponseIndexes table req = ExecResult.badRequest
        ("bad request: table " ++ req.Table ++ " has no column " ++ (toLowerStr c0)) := by
      simp only [buildResponseIndexes, hexp, heq]
    refine ⟨c0, hc0, ?_, ?_⟩ <;> simp only [buildResponse, htab, hidx]
  · intro env req table ix cols req2 htab hok hbad
    obtain ⟨b, hb, hn⟩ := hbad
    have hBacks : req2.Backends = req.Backends :=
      (buildResponseIndexes_ok_fields table req ix cols req2 hok).1
    obtain ⟨b0, hb0, hn0, hcheck⟩ := checkBackends_unknown env.dataStore req2.Backends
      ⟨b, by rw [hBacks]; exact hb, hn⟩
    have hlen : req2.Backends.length > 0 := by
      rw [hBacks]
      exact List.length_pos.mpr (List.ne_nil_of_mem hb)
    have hexp2 : expandRequestBackends env.dataStore req2 = ExecResult.badRequest
        ("bad request: backend " ++ b0 ++ " does not exist") := by
      simp only [expandRequestBackends, if_pos hlen, hcheck]
    rw [hBacks] at hb0
    refine ⟨b0, hb0, ?_, ?_⟩ <;> simp only [buildResponse, htab, hok, hexp2]
  · intro env req table ix cols rcm htab hres hbad
    obtain ⟨s0, hs0, hcase⟩ := validateSort_fail req.Table table rcm req.Sort' hbad
    have hT := (expandColumnsReq_fields table req).1
    have hS := (expandColumnsReq_fields table req).2.1
    rcases hcase with heq | heq
    · have hidx : buildResponseIndexes table req = ExecResult.badRequest
          ("bad request: table " ++ req.Table ++ " has no column " ++ s0.Name ++ " to sort") := by
        simp only [buildResponseIndexes, hT, hS, hres, heq]
      refine ⟨s0, hs0, Or.inl ?_, ?_⟩ <;> simp only [buildResponse, htab, hidx]
    · have hidx : buildResponseIndexes table req = ExecResult.badRequest
          ("bad request: sort column " ++ s0.Name ++ " not in result set") := by
        simp only [buildResponseIndexes, hT, hS, hres, heq]
      refine ⟨s0, hs0, Or.inr ?_, ?_⟩ <;> simp only [buildResponse, htab, hidx]

/-- Concrete engine environment for the C5 witness: one table, one
registered peer. -/
def envSample : Env :=
  { tables := [("hosts", schemaSample)], dataStoreOrder := ["p1"],
    dataStore := [("p1", peerA)], localData := fun _ _ _ _ r => r }

/-- Request naming a column absent from `schemaSample`. -/
def badColReq : Request :=
  { Table := "hosts", Columns := ["nosuch"], Stats := [], Sort' := [], Limit := 0,
    Offset := 0, Backends := [], OutputFormat := "", SendColumnsHeader := false,
    ResponseFixed16 := false }

/-- Request naming a backend absent from the registry. -/
def badBackendReq : Request :=
  { Table := "hosts", Columns := ["name"], Stats := [], Sort' := [], Limit := 0,
    Offset := 0, Backends := ["nope"], OutputFormat := "", SendColumnsHeader := false,
    ResponseFixed16 := false }

/-- Request sorting by a column absent from the schema. -/
def badSortReq : Request :=
  { Table := "hosts", Columns := ["name"],  Stats := [],
    Sort' := [{ Name := "alias", Direction := Direction.Asc, Index := 0 }], Limit := 0,
    Offset := 0, Backends := [], OutputFormat := "", SendColumnsHeader := false,
    ResponseFixed16 := false }

/-- The resolved output column of `badBackendReq`/`badSortReq`. -/
def colNameOut : Column :=
  { Name := "name", Typ := ColumnType.StringCol, Index := 0, RefIndex := 0,
    Update := UpdateType.NoUpdate }

/-- Witness for C5: the three bad requests against `envSample` each
produce the named bad-request error with an empty event trace. -/
theorem claim_C5_witness :
    (∃ c0 ∈ badColReq.Columns,
      (buildResponse envSample badColReq).1 = ExecResult.badRequest
        ("bad request: table " ++ badColReq.Table ++ " has no column " ++ (toLowerStr c0)) ∧
      (buildResponse envSample badColReq).2 = []) ∧
    (∃ b0 ∈ badBackendReq.Backends,
      (buildResponse envSample badBackendReq).1 = ExecResult.badRequest
        ("bad request: backend " ++ b0 ++ " does not exist") ∧
      (buildResponse envSample badBackendReq).2 = []) ∧
    (∃ s0 ∈ badSortReq.Sort',
      ((buildResponse envSample badSortReq).1 = ExecResult.badRequest
          ("bad request: table " ++ badSortReq.Table ++ " has no column " ++ s0.Name ++ " to sort") ∨
       (buildResponse envSample badSortReq).1 = ExecResult.badRequest
          ("bad request: sort column " ++ s0.Name ++ " not in result set")) ∧
      (buildResponse envSample badSortReq).2 = []) := by
  have hwf : ∀ n i, schemaSample.ColumnsIndex.lookup n = some i →
      i < schemaSample.Columns.length := by
    intro n i h
    obtain ⟨e, he, hb⟩ := lookup_mem_snd schemaSample.ColumnsIndex n i h
    rw [← hb]
    fin_cases he <;> decide
  refine ⟨?_, ?_, ?_⟩
  · exact claim_C5.1 envSample badColReq schemaSample rfl hwf ⟨"nosuch", by decide, rfl⟩
  · exact claim_C5.2.1 envSample badBackendReq schemaSample [(0 : Int)] [colNameOut]
      badBackendReq rfl (by decide) ⟨"nope", by decide, rfl⟩
  · exact claim_C5.2.2 envSample badSortReq schemaSample [(0 : Int)] [colNameOut]
      [("name", 0)] rfl (by decide)
      ⟨{ Name := "alias", Direction := Direction.Asc, Index := 0 }, by decide, Or.inl rfl⟩
